import Mathlib

/-!
Shallow embedding of the smart-book-gist repository (a minimal chat-completion
client plus a certificate-bundle setup script) and proofs about it.

Python strings are modelled as `List Char` (one element per code point, matching
Python's `len` and slicing); file contents read with `splitlines` are modelled
as `List (List Char)`; bytes are modelled as `List Nat`.
-/

namespace SmartBookGist

/-- A Python string: a sequence of Unicode code points. -/
abbrev PyStr := List Char

/-! ## scripts/setup_certs.py : environment-file update -/

/-- Python `str.isspace` on the characters `str.strip()` removes by default
(the ASCII whitespace characters that can occur in an env-file line). -/
def pyIsSpace (c : Char) : Bool :=
  c == ' ' || c == '\t' || c == '\n' || c == '\x0b' || c == '\x0c' || c == '\r'

/-- Python `line.strip()`: drop leading and trailing whitespace. -/
def pyStrip (s : PyStr) : PyStr :=
  ((s.dropWhile pyIsSpace).reverse.dropWhile pyIsSpace).reverse

/-- Python `stripped.startswith("#")`. -/
def startsWithHash : PyStr → Bool
  | [] => false
  | c :: _ => c == '#'

/-- The test `not stripped or stripped.startswith("#") or "=" not in line`
from `update_env_file`: such a line is passed through unchanged
(blank, comment, or malformed). -/
def isPassthrough (line : PyStr) : Bool :=
  let stripped := pyStrip line
  stripped.isEmpty || startsWithHash stripped || !(line.contains '=')

/-- Python `line.split("=", 1)[0].strip()`: the key name of a `KEY=VALUE`
line (the stripped text before the first `=`). -/
def keyName (line : PyStr) : PyStr :=
  pyStrip (line.takeWhile (fun c => c != '='))

/-- The first managed key, the string SSL_CERT_FILE. -/
def sslKey : PyStr := ['S', 'S', 'L', '_', 'C', 'E', 'R', 'T', '_', 'F', 'I', 'L', 'E']

/-- The second managed key, the string REQUESTS_CA_BUNDLE. -/
def reqKey : PyStr :=
  ['R', 'E', 'Q', 'U', 'E', 'S', 'T', 'S', '_', 'C', 'A', '_', 'B', 'U', 'N', 'D', 'L', 'E']

/-- The `keys_to_set` dict of `update_env_file`, in insertion order. -/
def keysToSet (bundlePath : PyStr) : List (PyStr × PyStr) :=
  [(sslKey, bundlePath), (reqKey, bundlePath)]

/-- The two managed key names. -/
def managedKeys : List PyStr := [sslKey, reqKey]

/-- The `for line in original_lines` loop of `update_env_file`: returns the
rewritten lines together with the list of managed keys found (Python's
`found` set; only membership in it is ever used). A passthrough line is kept;
a line whose key is in `keys_to_set` is rewritten to `f"{k_name}={value}"`;
any other `KEY=VALUE` line is kept as-is. -/
def scanLines (keys : List (PyStr × PyStr)) : List PyStr → List PyStr × List PyStr
  | [] => ([], [])
  | line :: rest =>
    let tail := scanLines keys rest
    if isPassthrough line then (line :: tail.1, tail.2)
    else
      let k := keyName line
      match List.lookup k keys with
      | some v => ((k ++ '=' :: v) :: tail.1, k :: tail.2)
      | none => (line :: tail.1, tail.2)

/-- `update_env_file`, at the level of the line list: rewrite existing lines,
then append `f"{k}={v}"` for each managed key not found, in dict order. -/
def update_env_lines (bundlePath : PyStr) (originalLines : List PyStr) : List PyStr :=
  let keys := keysToSet bundlePath
  let scanned := scanLines keys originalLines
  scanned.1 ++ keys.filterMap fun kv =>
    if scanned.2.contains kv.1 then none else some (kv.1 ++ '=' :: kv.2)

/-- The filesystem state `setup_certs.py` mutates: the `.env` file and its
`.env.bak` backup, each either absent (`none`) or holding a list of lines. -/
structure EnvState where
  env : Option (List PyStr)
  bak : Option (List PyStr)
  deriving Repr, DecidableEq

/-- `backup_env`: if `.env` exists and the backup does not, copy `.env` to
the backup path; otherwise change nothing. -/
def backup_env (s : EnvState) : EnvState :=
  match s.env with
  | some content =>
    match s.bak with
    | none => { s with bak := some content }
    | some _ => s
  | none => s

/-- `update_env_file` as a state transformer: back up first, read the
existing lines (empty when `.env` is absent), then write the merged lines. -/
def update_env_file (bundlePath : PyStr) (s : EnvState) : EnvState :=
  let s1 := backup_env s
  let originalLines := s1.env.getD []
  { s1 with env := some (update_env_lines bundlePath originalLines) }

/-- A line the update must leave untouched and in place: a real `KEY=VALUE`
line whose key is not managed. -/
def isPlainUnmanaged (line : PyStr) : Bool :=
  !(isPassthrough line) && !(managedKeys.contains (keyName line))

/-- Number of effective `KEY=VALUE` lines binding the key `k`. -/
def countKey (k : PyStr) (lines : List PyStr) : Nat :=
  (lines.filter fun l => !(isPassthrough l) && keyName l == k).length

/-! ## A model of Python JSON-style values

The API response documents and request/response bodies are Python objects
produced by `json` parsing: strings, integers, booleans, `None`, lists, and
(insertion-ordered) dicts. -/

mutual

inductive PyVal where
  | str : PyStr → PyVal
  | int : Int → PyVal
  | bool : Bool → PyVal
  | null : PyVal
  | list : PyList → PyVal
  | dict : PyDict → PyVal
  deriving Repr, DecidableEq

/-- A Python list of JSON-style values. -/
inductive PyList where
  | nil : PyList
  | cons : PyVal → PyList → PyList
  deriving Repr, DecidableEq

/-- A Python dict with string keys: its entries in insertion order. -/
inductive PyDict where
  | nil : PyDict
  | cons : PyStr → PyVal → PyDict → PyDict
  deriving Repr, DecidableEq

end

/-- Python `d.get(key)` on a string-keyed dict: the value stored under the
key, or `none` when the key is absent. -/
def pyLookup : PyDict → PyStr → Option PyVal
  | .nil, _ => none
  | .cons k v rest, key => if k = key then some v else pyLookup rest key

/-- One hexadecimal digit, lowercase, as produced by Python's `"%04x"`. -/
def hexDigit (n : Nat) : Char :=
  if n < 10 then Char.ofNat (48 + n) else Char.ofNat (87 + n)

/-- Four-digit lowercase hex rendering used by `json.dumps` unicode escapes. -/
def hex4 (n : Nat) : PyStr :=
  [hexDigit (n / 4096 % 16), hexDigit (n / 256 % 16), hexDigit (n / 16 % 16), hexDigit (n % 16)]

/-- How `json.dumps` (defaults: `ensure_ascii=True`) renders one character of
a string: the two-character named escapes, printable ASCII verbatim, and
`\uXXXX` escapes (with surrogate pairs above the BMP) for everything else. -/
def escapeChar (c : Char) : PyStr :=
  if c = '"' then ['\\', '"']
  else if c = '\\' then ['\\', '\\']
  else if c = '\n' then ['\\', 'n']
  else if c = '\r' then ['\\', 'r']
  else if c = '\t' then ['\\', 't']
  else if c = Char.ofNat 8 then ['\\', 'b']
  else if c = Char.ofNat 12 then ['\\', 'f']
  else if 32 ≤ c.toNat ∧ c.toNat ≤ 126 then [c]
  else if c.toNat < 65536 then '\\' :: 'u' :: hex4 c.toNat
  else
    ('\\' :: 'u' :: hex4 (55296 + (c.toNat - 65536) / 1024)) ++
      ('\\' :: 'u' :: hex4 (56320 + (c.toNat - 65536) % 1024))

/-- `json.dumps` escaping of a whole string body. -/
def escapeString (s : PyStr) : PyStr := (s.map escapeChar).flatten

/-- `json.dumps` rendering of a string value: escaped and double-quoted. -/
def dumpStr (s : PyStr) : PyStr := '"' :: escapeString s ++ ['"']

mutual

/-- `json.dumps(value)` with default arguments: compact separators
`", "` and `": "`, ASCII-escaped strings, dicts in insertion order. -/
def jsonDumps : PyVal → PyStr
  | .str s => dumpStr s
  | .int n => (toString n).data
  | .bool true => "true".data
  | .bool false => "false".data
  | .null => "null".data
  | .list xs => '[' :: dumpList xs ++ [']']
  | .dict entries => '{' :: dumpEntries entries ++ ['}']

/-- `json.dumps` rendering of list elements, separated by `", "`. -/
def dumpList : PyList → PyStr
  | .nil => []
  | .cons x .nil => jsonDumps x
  | .cons x xs => jsonDumps x ++ ',' :: ' ' :: dumpList xs

/-- `json.dumps` rendering of dict entries, `key: value` separated by `", "`. -/
def dumpEntries : PyDict → PyStr
  | .nil => []
  | .cons k v .nil => dumpStr k ++ ':' :: ' ' :: jsonDumps v
  | .cons k v rest =>
    dumpStr k ++ ':' :: ' ' :: jsonDumps v ++ ',' :: ' ' :: dumpEntries rest

end

/-! ## src/processor.py : summarize_choice -/

/-- The final return expression of `summarize_choice` applied to a string
content: `content if len(content) <= 400 else content[:400] + "…"`. -/
def truncPreview (content : PyStr) : PyStr :=
  if content.length ≤ 400 then content else content.take 400 ++ ['…']

/-- Number of elements of a Python list value. -/
def pyListLength : PyList → Nat
  | .nil => 0
  | .cons _ xs => pyListLength xs + 1

/-- Number of entries of a Python dict value. -/
def pyDictLength : PyDict → Nat
  | .nil => 0
  | .cons _ _ rest => pyDictLength rest + 1

/-- Python `len(x)`: defined for strings (code points), lists (elements) and
dicts (keys); `none` models the `TypeError` it raises on `None`, numbers and
booleans. -/
def pyLen : PyVal → Option Nat
  | .str s => some s.length
  | .list xs => some (pyListLength xs)
  | .dict es => some (pyDictLength es)
  | _ => none

/-- Whether a Python value is a string. -/
def isStr : PyVal → Bool
  | .str _ => true
  | _ => false

/-- The final `return content if len(content) <= 400 else content[:400] + "…"`
of `summarize_choice`, on an arbitrary content value. `len(content)` raises on
`None`, numbers and booleans (`pyLen = none`). A value whose length is at
most 400 is returned unchanged — including non-string lists and dicts. In
the over-400 branch, `content[:400] + "…"` succeeds only for strings: slicing a
long list succeeds but the `+ "…"` concatenation raises, and slicing a dict
raises; both are modelled as `none`. -/
def summarize_final (content : PyVal) : Option PyVal :=
  match pyLen content with
  | none => none
  | some n =>
    if n ≤ 400 then some content
    else
      match content with
      | .str s => some (.str (s.take 400 ++ ['…']))
      | _ => none

/-- `summarize_choice(choice)` for a dict-shaped choice (the function's
annotated contract `choice: Dict`). The branches mirror the source: a nested
dict under `message` yields `content = message.get("content", "")`; else a
present `text` key yields its stored value; else
`content = json.dumps(choice)[:400]` (already cut to 400 here, before the
final length test, so this branch never receives the ellipsis). The final
return is `summarize_final content`; `none` models a raise there. -/
def summarize_choice (choice : PyDict) : Option PyVal :=
  let content : PyVal :=
    match pyLookup choice "message".data with
    | some (.dict msg) => (pyLookup msg "content".data).getD (.str [])
    | _ =>
      match pyLookup choice "text".data with
      | some v => v
      | none => .str ((jsonDumps (.dict choice)).take 400)
  summarize_final content

/-- The first branch's condition in `summarize_choice`:
`"message" in choice and isinstance(choice["message"], dict)`, returning the
nested dict when the condition holds. -/
def msgDictBranch (choice : PyDict) : Option PyDict :=
  match pyLookup choice "message".data with
  | some (.dict m) => some m
  | _ => none

/-! ## scripts/setup_certs.py : write_combined_bundle -/

/-- One `out.write(chunk)` on a binary file: append the chunk's bytes. -/
def fileWrite (f : List Nat) (chunk : List Nat) : List Nat := f ++ chunk

/-- `write_combined_bundle`: starting from a freshly opened (empty) output
file, write the public CA bundle bytes (`certifi.where()`), one newline
byte, then the custom certificate bytes. -/
def write_combined_bundle (certifiBytes zscalerBytes : List Nat) : List Nat :=
  fileWrite (fileWrite (fileWrite [] certifiBytes) [10]) zscalerBytes

/-! ## src/groq_client.py : send_chat response handling -/

/-- The HTTP response object `requests.post` returns, as `send_chat` observes
it: `resp.ok` (status in the success range), status code and reason, the body
text, and the outcome of `resp.json()` (`none` when parsing raises, with the
exception's message in `parseErrMsg`). -/
structure HttpResp where
  ok : Bool
  statusCode : Nat
  reason : PyStr
  text : PyStr
  jsonBody : Option PyVal
  parseErrMsg : PyStr
  deriving Repr, DecidableEq

/-- The payload a non-success response's `RuntimeError` carries: the parsed
JSON error body, or a string when the body is not valid JSON. -/
inductive ApiErrBody where
  | json : PyVal → ApiErrBody
  | text : PyStr → ApiErrBody
  deriving Repr, DecidableEq

/-- The two `RuntimeError` failures `send_chat` can raise: the API-error
failure for a non-success status, and the decode failure (parse-error
message, raw text) for an unparsable success body. -/
inductive ChatError where
  | apiError : ApiErrBody → ChatError
  | decodeError : PyStr → PyStr → ChatError
  deriving Repr, DecidableEq

/-- The response-validation tail of `send_chat`: on a non-success status,
fail with the parsed error body, or — because of `text or f"{...}"` — with
the raw text when it is non-empty and otherwise with the
`f"{resp.status_code} {resp.reason}"` string; on a success status, return
the parsed JSON, or fail with the parse error and raw text. -/
def send_chat (resp : HttpResp) : Except ChatError PyVal :=
  let text := resp.text
  if !resp.ok then
    let errJson : ApiErrBody :=
      match resp.jsonBody with
      | some j => .json j
      | none =>
        .text (if text.isEmpty then (toString resp.statusCode).data ++ ' ' :: resp.reason
               else text)
    .error (.apiError errJson)
  else
    match resp.jsonBody with
    | some j => .ok j
    | none => .error (.decodeError resp.parseErrMsg text)

/-! ## src/webapp.py : the POST /summarize route -/

/-- Python truthiness of a JSON-style value (`bool(x)`). -/
def pyTruthy : PyVal → Bool
  | .null => false
  | .bool b => b
  | .int n => n != 0
  | .str s => !s.isEmpty
  | .list .nil => false
  | .list (.cons _ _) => true
  | .dict .nil => false
  | .dict (.cons _ _ _) => true

/-- The route's gist extraction
`resp.get("choices", [{}])[0].get("message", {}).get("content") or resp`,
run inside the same `try` block: `none` models a raised exception (empty
choices list, non-indexable or non-dict shapes). A falsy extracted content
falls back to the whole response, as `or` does. -/
def extractGist (resp : PyVal) : Option PyVal :=
  match resp with
  | .dict entries =>
    match (pyLookup entries "choices".data).getD (.list (.cons (.dict .nil) .nil)) with
    | .list (.cons c0 _) =>
      match c0 with
      | .dict c0e =>
        match (pyLookup c0e "message".data).getD (.dict .nil) with
        | .dict me =>
          let content := (pyLookup me "content".data).getD .null
          some (if pyTruthy content then content else resp)
        | _ => none
      | _ => none
    | _ => none
  | _ => none

/-- The `POST /summarize` handler, given the parsed request body and the
HTTP response the Groq call produces. `strOfExc` and `extractExcMsg` stand
for Python's opaque `str(e)` rendering of the caught exception (from the
API call and from gist extraction, respectively). Sampling parameters and
the model override read from the body only shape the outgoing request,
which is abstracted by `resp`; the handler's observable result is the JSON
body and status code. -/
def summarize_route (strOfExc : ChatError → PyStr) (extractExcMsg : PyStr)
    (body : PyDict) (resp : HttpResp) : PyVal × Nat :=
  let prompt := (pyLookup body "prompt".data).getD (.str "No prompt provided".data)
  match send_chat resp with
  | .error e =>
    (.dict (.cons "error".data (.str "Failed to call Groq API".data)
      (.cons "details".data (.str (strOfExc e)) .nil)), 500)
  | .ok r =>
    match extractGist r with
    | none =>
      (.dict (.cons "error".data (.str "Failed to call Groq API".data)
        (.cons "details".data (.str extractExcMsg) .nil)), 500)
    | some gist =>
      (.dict (.cons "prompt".data prompt (.cons "gist".data gist .nil)), 200)

/-! ## src/main.py and scripts/setup_certs.py : entry points and exit codes -/

/-- `DEFAULT_PROMPT` from `src/main.py`. -/
def DEFAULT_PROMPT : PyStr :=
  "Explain the importance of fast language models in 3 concise bullet points.".data

/-- `build_messages(prompt)`: the fixed system message plus the user prompt,
each message modelled as a (role, content) pair. -/
def build_messages (prompt : PyStr) : List (PyStr × PyStr) :=
  [("system".data, "You are a concise, professional assistant.".data),
   ("user".data, prompt)]

/-- Prompt resolution in `main` (before the `try` block): with `--file`,
read and strip the file (`none` models the uncaught `FileNotFoundError`
when the file is missing); otherwise `args.prompt or DEFAULT_PROMPT`
(an empty or absent prompt argument falls back to the default). -/
def resolvePrompt (fs : PyStr → Option PyStr) (fileArg promptArg : Option PyStr) :
    Option PyStr :=
  match fileArg with
  | some f => (fs f).map pyStrip
  | none =>
    match promptArg with
    | some p => some (if p.isEmpty then DEFAULT_PROMPT else p)
    | none => some DEFAULT_PROMPT

/-- The CLI entry point's process exit status. `fs` models the filesystem
(`read_text`), `chat` the `send_chat` call on the built conversation.
Reading the prompt file happens before the `try` block, so a missing file
raises an uncaught `FileNotFoundError` and the interpreter exits with
status 1; inside the `try` block any exception is printed and mapped to
`SystemExit(2)`; `process_and_save` (pure formatting plus a write that
creates its parent directories) is modelled as succeeding, after which
`main` returns and the process exits 0. -/
def mainCLI (fs : PyStr → Option PyStr) (fileArg promptArg : Option PyStr)
    (chat : List (PyStr × PyStr) → Except ChatError PyVal) : Nat :=
  match resolvePrompt fs fileArg promptArg with
  | none => 1
  | some prompt =>
    match chat (build_messages prompt) with
    | .error _ => 2
    | .ok _ => 0

/-- The setup script's `main`: with an explicit `--zscaler` path that does
not exist, `SystemExit(2)`; with an explicit existing path the bundle is
written and the env file updated, then `main` returns (exit 0). Without an
explicit path, an empty discovered-candidates list is `SystemExit(2)`, else
the first candidate is used and the script exits 0. -/
def setup_main (pathExists : PyStr → Bool) (zscalerArg : Option PyStr)
    (candidates : List PyStr) : Nat :=
  match zscalerArg with
  | some z => if pathExists z then 0 else 2
  | none => if candidates.isEmpty then 2 else 0

/-! ### Helper lemmas about the env-file update -/

theorem sslKey_spelling : sslKey = "SSL_CERT_FILE".data := by decide

theorem reqKey_spelling : reqKey = "REQUESTS_CA_BUNDLE".data := by decide

theorem dropWhile_append_last {p : Char → Bool} {c : Char} (hc : p c = false) :
    ∀ xs : PyStr, ∃ ys : PyStr, (xs ++ [c]).dropWhile p = ys ++ [c] := by
  intro xs
  induction xs with
  | nil => exact ⟨[], by simp [List.dropWhile, hc]⟩
  | cons x xs ih =>
    by_cases hx : p x = true
    · obtain ⟨ys, hys⟩ := ih
      exact ⟨ys, by simp [List.dropWhile, hx, hys]⟩
    · exact ⟨x :: xs, by simp [List.dropWhile, hx]⟩

theorem pyStrip_cons {c : Char} (t : PyStr) (hc : pyIsSpace c = false) :
    ∃ t' : PyStr, pyStrip (c :: t) = c :: t' := by
  unfold pyStrip
  rw [List.dropWhile_cons_of_neg (by simp [hc])]
  rw [List.reverse_cons]
  obtain ⟨ys, hys⟩ := dropWhile_append_last hc t.reverse
  exact ⟨ys.reverse, by rw [hys, List.reverse_append]; rfl⟩

theorem takeWhile_all_append {p : Char → Bool} {xs : PyStr} (h : xs.all p = true)
    {y : Char} (hy : p y = false) (ys : PyStr) :
    (xs ++ y :: ys).takeWhile p = xs := by
  induction xs with
  | nil => simp [List.takeWhile, hy]
  | cons x xs ih =>
    simp only [List.all_cons, Bool.and_eq_true] at h
    simp [List.takeWhile, h.1, ih h.2]

theorem managed_mem (k : PyStr) (hk : k ∈ managedKeys) : k = sslKey ∨ k = reqKey := by
  simpa [managedKeys] using hk

theorem keyName_managed_line {k : PyStr} (hk : k ∈ managedKeys) (v : PyStr) :
    keyName (k ++ '=' :: v) = k := by
  rcases managed_mem k hk with h | h <;> subst h
  · rw [keyName, takeWhile_all_append (by decide) (by decide)]; decide
  · rw [keyName, takeWhile_all_append (by decide) (by decide)]; decide

theorem isPassthrough_of_head {c : Char} (t : PyStr) (hc : pyIsSpace c = false)
    (hhash : (c == '#') = false) (hmem : '=' ∈ c :: t) :
    isPassthrough (c :: t) = false := by
  obtain ⟨t', ht'⟩ := pyStrip_cons t hc
  simp [isPassthrough, ht', startsWithHash, hhash, List.contains, hmem]

theorem isPassthrough_managed_line {k : PyStr} (hk : k ∈ managedKeys) (v : PyStr) :
    isPassthrough (k ++ '=' :: v) = false := by
  rcases managed_mem k hk with h | h <;> subst h
  · exact isPassthrough_of_head _ (by decide) (by decide) (by simp [sslKey])
  · exact isPassthrough_of_head _ (by decide) (by decide) (by simp [reqKey])

theorem lookup_keysToSet (b k : PyStr) :
    List.lookup k (keysToSet b) =
      if k = sslKey ∨ k = reqKey then some b else none := by
  by_cases h1 : k = sslKey
  · have e1 : (k == sslKey) = true := beq_iff_eq.mpr h1
    simp [keysToSet, List.lookup, e1, h1]
  · have e1 : (k == sslKey) = false := beq_eq_false_iff_ne.mpr h1
    by_cases h2 : k = reqKey
    · have e2 : (k == reqKey) = true := beq_iff_eq.mpr h2
      rw [if_pos (Or.inr h2)]
      simp [keysToSet, List.lookup, e1, e2]
    · have e2 : (k == reqKey) = false := beq_eq_false_iff_ne.mpr h2
      simp [keysToSet, List.lookup, e1, e2, h1, h2]

theorem lookup_managed {k : PyStr} (b : PyStr) (hk : k ∈ managedKeys) :
    List.lookup k (keysToSet b) = some b := by
  rw [lookup_keysToSet, if_pos (managed_mem k hk)]

theorem managed_contains_true {k : PyStr} (hk : k ∈ managedKeys) :
    managedKeys.contains k = true := by
  simp [List.contains, hk]

theorem lookup_none_not_managed {b k : PyStr}
    (h : List.lookup k (keysToSet b) = none) :
    k ∉ managedKeys := by
  rw [lookup_keysToSet] at h
  by_cases hm : k = sslKey ∨ k = reqKey
  · rw [if_pos hm] at h; exact absurd h (by simp)
  · simpa [managedKeys] using hm

theorem lookup_keysToSet_val {b k v : PyStr}
    (h : List.lookup k (keysToSet b) = some v) :
    v = b ∧ k ∈ managedKeys := by
  rw [lookup_keysToSet] at h
  by_cases hm : k = sslKey ∨ k = reqKey
  · rw [if_pos hm] at h
    refine ⟨(Option.some.injEq _ _).mp h.symm, ?_⟩
    rcases hm with h1 | h1 <;> simp [managedKeys, h1]
  · rw [if_neg hm] at h; exact absurd h (by simp)

theorem scanLines_length (keys : List (PyStr × PyStr)) :
    ∀ orig, (scanLines keys orig).1.length = orig.length := by
  intro orig
  induction orig with
  | nil => rfl
  | cons line rest ih =>
    by_cases hp : isPassthrough line = true
    · simp [scanLines, hp, ih]
    · cases hl : List.lookup (keyName line) keys <;> simp [scanLines, hp, hl, ih]

theorem countKey_cons (k line : PyStr) (rest : List PyStr) :
    countKey k (line :: rest) =
      (if !(isPassthrough line) && keyName line == k then 1 else 0) + countKey k rest := by
  by_cases h : (!(isPassthrough line) && keyName line == k) = true
  · simp [countKey, List.filter_cons, h, Nat.add_comm]
  · simp [countKey, List.filter_cons, h]

theorem countKey_append (k : PyStr) (xs ys : List PyStr) :
    countKey k (xs ++ ys) = countKey k xs + countKey k ys := by
  simp [countKey, List.filter_append]

theorem scan_filter (b : PyStr) :
    ∀ orig, ((scanLines (keysToSet b) orig).1).filter isPlainUnmanaged =
      orig.filter isPlainUnmanaged := by
  intro orig
  induction orig with
  | nil => rfl
  | cons line rest ih =>
    by_cases hp : isPassthrough line = true
    · have hu : isPlainUnmanaged line = false := by simp [isPlainUnmanaged, hp]
      simp [scanLines, hp, List.filter_cons, hu, ih]
    · cases hl : List.lookup (keyName line) (keysToSet b) with
      | some v =>
        obtain ⟨hv, hk⟩ := lookup_keysToSet_val hl
        rw [hv] at hl
        have h1 : isPlainUnmanaged (keyName line ++ '=' :: b) = false := by
          simp [isPlainUnmanaged, keyName_managed_line hk, hk]
        have h2 : isPlainUnmanaged line = false := by
          simp [isPlainUnmanaged, hk]
        simp [scanLines, hp, hl, List.filter_cons, h1, h2, ih]
      | none =>
        have h1 : isPlainUnmanaged line = true := by
          simp [isPlainUnmanaged, hp, lookup_none_not_managed hl]
        simp [scanLines, hp, hl, List.filter_cons, h1, ih]

theorem scan_count (b k : PyStr) :
    ∀ orig, countKey k (scanLines (keysToSet b) orig).1 = countKey k orig := by
  intro orig
  induction orig with
  | nil => rfl
  | cons line rest ih =>
    by_cases hp : isPassthrough line = true
    · simp [scanLines, hp, countKey_cons, ih]
    · cases hl : List.lookup (keyName line) (keysToSet b) with
      | some v =>
        obtain ⟨hv, hk0⟩ := lookup_keysToSet_val hl
        rw [hv] at hl
        have e1 : isPassthrough (keyName line ++ '=' :: b) = false :=
          isPassthrough_managed_line hk0 b
        have e2 : keyName (keyName line ++ '=' :: b) = keyName line :=
          keyName_managed_line hk0 b
        simp [scanLines, hp, hl, countKey_cons, e1, e2, ih]
      | none =>
        simp [scanLines, hp, hl, countKey_cons, ih]

theorem scan_found (b : PyStr) {k : PyStr} (hk : k ∈ managedKeys) :
    ∀ orig, k ∈ (scanLines (keysToSet b) orig).2 ↔ 0 < countKey k orig := by
  intro orig
  induction orig with
  | nil => simp [scanLines, countKey]
  | cons line rest ih =>
    by_cases hp : isPassthrough line = true
    · simpa [scanLines, hp, countKey_cons] using ih
    · cases hl : List.lookup (keyName line) (keysToSet b) with
      | some v =>
        by_cases he : keyName line = k
        · have hl' : List.lookup k (keysToSet b) = some v := he ▸ hl
          simp [scanLines, hp, hl', countKey_cons, he, Nat.add_comm]
        · have hb : ¬k = keyName line := fun h => he h.symm
          have hb' : (keyName line == k) = false :=
            beq_eq_false_iff_ne.mpr he
          simpa [scanLines, hp, hl, countKey_cons, hb, hb'] using ih
      | none =>
        have hne : keyName line ≠ k := by
          intro h
          rw [h, lookup_managed b hk] at hl
          exact absurd hl (by simp)
        have hb' : (keyName line == k) = false := beq_eq_false_iff_ne.mpr hne
        simpa [scanLines, hp, hl, countKey_cons, hb'] using ih

theorem ssl_mem : sslKey ∈ managedKeys := by simp [managedKeys]

theorem req_mem : reqKey ∈ managedKeys := by simp [managedKeys]

theorem appended_filter (b : PyStr) (found : List PyStr) :
    ((keysToSet b).filterMap fun kv =>
      if found.contains kv.1 then none
      else some (kv.1 ++ '=' :: kv.2)).filter isPlainUnmanaged = [] := by
  have h1 : isPlainUnmanaged (sslKey ++ '=' :: b) = false := by
    simp [isPlainUnmanaged, keyName_managed_line ssl_mem, ssl_mem]
  have h2 : isPlainUnmanaged (reqKey ++ '=' :: b) = false := by
    simp [isPlainUnmanaged, keyName_managed_line req_mem, req_mem]
  by_cases hc1 : sslKey ∈ found <;> by_cases hc2 : reqKey ∈ found <;>
    simp [keysToSet, List.filterMap_cons, hc1, hc2, List.filter, h1, h2]

theorem appended_count (b : PyStr) (found : List PyStr) {k : PyStr}
    (hk : k ∈ managedKeys) :
    countKey k ((keysToSet b).filterMap fun kv =>
      if found.contains kv.1 then none
      else some (kv.1 ++ '=' :: kv.2)) = if k ∈ found then 0 else 1 := by
  have e1 := keyName_managed_line ssl_mem b
  have e2 := keyName_managed_line req_mem b
  have p1 := isPassthrough_managed_line ssl_mem b
  have p2 := isPassthrough_managed_line req_mem b
  have d1 : (sslKey == reqKey) = false := by decide
  have d2 : (reqKey == sslKey) = false := by decide
  rcases managed_mem k hk with h | h <;> subst h <;>
    by_cases hc1 : sslKey ∈ found <;> by_cases hc2 : reqKey ∈ found <;>
      simp [keysToSet, List.filterMap_cons, hc1, hc2, countKey_cons, countKey,
        e1, e2, p1, p2, d1, d2]

theorem appended_mem {b : PyStr} {found : List PyStr} {l : PyStr}
    (hl : l ∈ (keysToSet b).filterMap fun kv =>
      if found.contains kv.1 then none
      else some (kv.1 ++ '=' :: kv.2)) :
    l = sslKey ++ '=' :: b ∨ l = reqKey ++ '=' :: b := by
  by_cases hc1 : sslKey ∈ found <;> by_cases hc2 : reqKey ∈ found <;>
    simp [keysToSet, List.filterMap_cons, hc1, hc2] at hl <;> tauto

theorem scan_mem_bound (b : PyStr) :
    ∀ orig l, l ∈ (scanLines (keysToSet b) orig).1 → isPassthrough l = false →
      keyName l ∈ managedKeys → l = keyName l ++ '=' :: b := by
  intro orig
  induction orig with
  | nil => intro l hl; exact absurd hl (by simp [scanLines])
  | cons line rest ih =>
    intro l hl hp hm
    by_cases hpl : isPassthrough line = true
    · rw [show scanLines (keysToSet b) (line :: rest) =
          (line :: (scanLines (keysToSet b) rest).1, (scanLines (keysToSet b) rest).2) by
            simp [scanLines, hpl]] at hl
      rcases List.mem_cons.mp hl with h | h
      · subst h; rw [hpl] at hp; exact absurd hp (by simp)
      · exact ih l h hp hm
    · cases hlk : List.lookup (keyName line) (keysToSet b) with
      | some v =>
        obtain ⟨hv, hk0⟩ := lookup_keysToSet_val hlk
        rw [hv] at hlk
        rw [show scanLines (keysToSet b) (line :: rest) =
            ((keyName line ++ '=' :: b) :: (scanLines (keysToSet b) rest).1,
              keyName line :: (scanLines (keysToSet b) rest).2) by
              simp [scanLines, hpl, hlk]] at hl
        rcases List.mem_cons.mp hl with h | h
        · subst h
          rw [keyName_managed_line hk0]
        · exact ih l h hp hm
      | none =>
        rw [show scanLines (keysToSet b) (line :: rest) =
            (line :: (scanLines (keysToSet b) rest).1, (scanLines (keysToSet b) rest).2) by
              simp [scanLines, hpl, hlk]] at hl
        rcases List.mem_cons.mp hl with h | h
        · subst h; exact absurd hm (lookup_none_not_managed hlk)
        · exact ih l h hp hm

/-- Amended C1: the update preserves every non-managed effective line in
order; every effective managed-key line of the result is bound to the new
bundle path; and each managed key occurs `max 1 n` times, where `n` is its
number of occurrences in the input (so exactly once only when it occurred
at most once before). -/
theorem update_env_lines_spec (b : PyStr) (orig : List PyStr) :
    (update_env_lines b orig).filter isPlainUnmanaged = orig.filter isPlainUnmanaged ∧
    (∀ k, k ∈ managedKeys →
      countKey k (update_env_lines b orig) = max 1 (countKey k orig)) ∧
    (∀ l, l ∈ update_env_lines b orig → isPassthrough l = false →
      keyName l ∈ managedKeys → l = keyName l ++ '=' :: b) := by
  refine ⟨?_, ?_, ?_⟩
  · simp only [update_env_lines]
    rw [List.filter_append, scan_filter, appended_filter, List.append_nil]
  · intro k hk
    simp only [update_env_lines]
    rw [countKey_append, scan_count, appended_count b _ hk]
    by_cases hc : k ∈ (scanLines (keysToSet b) orig).2
    · have h := (scan_found b hk orig).mp hc
      rw [if_pos hc]
      omega
    · have h0 : countKey k orig = 0 := by
        by_contra hne
        exact hc ((scan_found b hk orig).mpr (Nat.pos_of_ne_zero hne))
      rw [if_neg hc, h0]
      omega
  · intro l hl hp hm
    simp only [update_env_lines] at hl
    rcases List.mem_append.mp hl with h | h
    · exact scan_mem_bound b orig l h hp hm
    · rcases appended_mem h with h' | h' <;> subst h'
      · rw [keyName_managed_line ssl_mem]
      · rw [keyName_managed_line req_mem]

theorem scan_pos (b : PyStr) :
    ∀ (orig : List PyStr) (i : Nat) (l : PyStr), orig[i]? = some l →
      isPassthrough l = false → keyName l ∈ managedKeys →
      (scanLines (keysToSet b) orig).1[i]? = some (keyName l ++ '=' :: b) := by
  intro orig
  induction orig with
  | nil => intro i l h _ _; simp at h
  | cons line rest ih =>
    intro i l h hp hm
    cases i with
    | zero =>
      have hline : line = l := by simpa using h
      subst hline
      simp [scanLines, hp, lookup_managed b hm]
    | succ n =>
      have h' : rest[n]? = some l := by simpa using h
      by_cases hpl : isPassthrough line = true
      · simpa [scanLines, hpl] using ih n l h' hp hm
      · cases hlk : List.lookup (keyName line) (keysToSet b) <;>
          simpa [scanLines, hpl, hlk] using ih n l h' hp hm

theorem update_env_lines_pos (b : PyStr) (orig : List PyStr) (i : Nat) (l : PyStr)
    (h : orig[i]? = some l) (hp : isPassthrough l = false)
    (hm : keyName l ∈ managedKeys) :
    (update_env_lines b orig)[i]? = some (keyName l ++ '=' :: b) := by
  obtain ⟨hi, -⟩ := List.getElem?_eq_some.mp h
  simp only [update_env_lines]
  rw [List.getElem?_append_left (by rw [scanLines_length]; exact hi)]
  exact scan_pos b orig i l h hp hm

theorem backup_env_env (s : EnvState) : (backup_env s).env = s.env := by
  cases s with
  | mk env bak => cases env <;> cases bak <;> rfl

theorem truncPreview_length (t : PyStr) : (truncPreview t).length ≤ 401 := by
  unfold truncPreview
  split
  · omega
  · simp only [List.length_append, List.length_take, List.length_cons,
      List.length_nil]
    have := Nat.min_le_left 400 t.length
    omega

theorem truncPreview_take400 (l : PyStr) :
    truncPreview (l.take 400) = l.take 400 := by
  unfold truncPreview
  rw [if_pos]
  simp only [List.length_take]
  exact Nat.min_le_left _ _

theorem summarize_final_str (s : PyStr) :
    summarize_final (.str s) = some (.str (truncPreview s)) := by
  show (if s.length ≤ 400 then some (PyVal.str s)
        else some (.str (s.take 400 ++ ['…']))) = some (.str (truncPreview s))
  unfold truncPreview
  split <;> rfl

theorem summarize_final_bound (c v : PyVal) (h : summarize_final c = some v) :
    (∀ s, v = .str s → s.length ≤ 401) ∧
    (isStr v = false → ∃ n, pyLen v = some n ∧ n ≤ 400) := by
  cases c with
  | str s =>
    rw [summarize_final_str] at h
    obtain rfl : v = .str (truncPreview s) := (Option.some.inj h).symm
    refine ⟨?_, fun hf => absurd hf (by simp [isStr])⟩
    intro s' hs'
    have he : truncPreview s = s' := by simpa using hs'
    rw [← he]
    exact truncPreview_length s
  | int m => exact Option.noConfusion h
  | bool b => exact Option.noConfusion h
  | null => exact Option.noConfusion h
  | list xs =>
    have h2 : (if pyListLength xs ≤ 400 then some (PyVal.list xs) else none) = some v := h
    by_cases hn : pyListLength xs ≤ 400
    · rw [if_pos hn] at h2
      obtain rfl : v = .list xs := (Option.some.inj h2).symm
      exact ⟨fun s hs => by simp at hs, fun _ => ⟨pyListLength xs, rfl, hn⟩⟩
    · rw [if_neg hn] at h2
      exact Option.noConfusion h2
  | dict es =>
    have h2 : (if pyDictLength es ≤ 400 then some (PyVal.dict es) else none) = some v := h
    by_cases hn : pyDictLength es ≤ 400
    · rw [if_pos hn] at h2
      obtain rfl : v = .dict es := (Option.some.inj h2).symm
      exact ⟨fun s hs => by simp at hs, fun _ => ⟨pyDictLength es, rfl, hn⟩⟩
    · rw [if_neg hn] at h2
      exact Option.noConfusion h2

/-! ## Claim theorems -/

/-- C1 (amended): updating an existing environment file rewrites its lines
so that every non-blank, non-comment, well-formed line whose key is not
managed is preserved verbatim and in its original relative order; every
effective managed-key line of the result is bound to the new bundle path;
and each managed key occurs `max 1 n` times where `n` is its number of
occurrences in the input — exactly once as the claim states only when the
key occurred at most once before (duplicates are each rewritten, so the
key then appears more than once). -/
theorem claimC1_env_update (b : PyStr) (s : EnvState) (orig : List PyStr)
    (h : s.env = some orig) :
    (update_env_file b s).env = some (update_env_lines b orig) ∧
    (update_env_lines b orig).filter isPlainUnmanaged = orig.filter isPlainUnmanaged ∧
    (∀ k, k ∈ managedKeys →
      countKey k (update_env_lines b orig) = max 1 (countKey k orig)) ∧
    (∀ l, l ∈ update_env_lines b orig → isPassthrough l = false →
      keyName l ∈ managedKeys → l = keyName l ++ '=' :: b) := by
  obtain ⟨h1, h2, h3⟩ := update_env_lines_spec b orig
  refine ⟨?_, h1, h2, h3⟩
  show some (update_env_lines b ((backup_env s).env.getD [])) = _
  rw [backup_env_env, h]
  rfl

/-- C1 counterexample: on a file that binds SSL_CERT_FILE twice, the update
leaves the key bound on two lines, not exactly once as the claim states. -/
theorem claimC1_counterexample :
    countKey sslKey
      (update_env_lines "p".data ["SSL_CERT_FILE=a".data, "SSL_CERT_FILE=b".data]) = 2 ∧
    (2 : Nat) ≠ 1 := ⟨by decide, by decide⟩

/-- C1 witness: the managed-key count clause of the amended claim at a
concrete one-line file that does not mention the managed keys. -/
theorem claimC1_witness :
    countKey sslKey (update_env_lines "p".data ["FOO=1".data]) =
      max 1 (countKey sslKey ["FOO=1".data]) :=
  (claimC1_env_update "p".data ⟨some ["FOO=1".data], none⟩ ["FOO=1".data] rfl).2.2.1
    sslKey (by decide)

/-- C2 (amended): the update rewrites every occurrence of a managed key to
the new bundle path, not only the first — the line at each position holding
a managed key is replaced, so no duplicate is left stale. -/
theorem claimC2_every_occurrence (b : PyStr) (orig : List PyStr) (i : Nat) (l : PyStr)
    (h : orig[i]? = some l) (hp : isPassthrough l = false)
    (hm : keyName l ∈ managedKeys) :
    (update_env_lines b orig)[i]? = some (keyName l ++ '=' :: b) :=
  update_env_lines_pos b orig i l h hp hm

/-- C2 counterexample: with SSL_CERT_FILE bound on two lines, the second
occurrence is rewritten to the new value as well, not left untouched with
its stale value as the claim states. -/
theorem claimC2_counterexample :
    (update_env_lines "p".data
      ["SSL_CERT_FILE=a".data, "SSL_CERT_FILE=b".data])[1]? =
      some "SSL_CERT_FILE=p".data ∧
    "SSL_CERT_FILE=p".data ≠ "SSL_CERT_FILE=b".data := ⟨by decide, by decide⟩

/-- C2 witness: the amended claim applied to the second duplicate line of a
concrete file. -/
theorem claimC2_witness :
    (update_env_lines "p".data
      ["SSL_CERT_FILE=a".data, "SSL_CERT_FILE=b".data])[1]? =
      some (keyName "SSL_CERT_FILE=b".data ++ '=' :: "p".data) :=
  claimC2_every_occurrence "p".data _ 1 "SSL_CERT_FILE=b".data
    (by decide) (by decide) (by decide)

/-- C3 (confirmed): starting from an environment file with no backup,
running the update twice leaves the backup equal to the file's content
before the first update; and more generally an existing backup is never
refreshed by an update. -/
theorem claimC3_backup_first_run :
    (∀ b1 b2 content,
      (update_env_file b2 (update_env_file b1 ⟨some content, none⟩)).bak = some content) ∧
    (∀ s x b, s.bak = some x → (update_env_file b s).bak = some x) := by
  constructor
  · intro b1 b2 content
    rfl
  · intro s x b h
    cases s with
    | mk env bak =>
      cases env <;> simp_all [update_env_file, backup_env]

/-- C3 witness: an update on a state whose backup already exists keeps the
old backup. -/
theorem claimC3_witness :
    (update_env_file "p".data ⟨some [], some ["A=1".data]⟩).bak = some ["A=1".data] :=
  claimC3_backup_first_run.2 ⟨some [], some ["A=1".data]⟩ ["A=1".data] "p".data rfl

/-- C4 (confirmed): the combined trust bundle is byte-exact — the public
bundle bytes, one newline byte, then the custom certificate bytes, with no
other processing. -/
theorem claimC4_bundle_concat (pub custom : List Nat) :
    write_combined_bundle pub custom = pub ++ [10] ++ custom := by
  simp [write_combined_bundle, fileWrite]

/-- C5 (amended): a non-success response fails with the parsed JSON error
body; with the raw text when the body is not valid JSON and the text is
non-empty; and — the correction — with the `"status reason"` string, not
the raw (empty) text, when the body is empty. A success response returns
the parsed JSON, or fails with the decode error carrying the parse failure
message and the raw text. -/
theorem claimC5_response_validation (r : HttpResp) :
    (r.ok = false → ∀ j, r.jsonBody = some j →
      send_chat r = .error (.apiError (.json j))) ∧
    (r.ok = false → r.jsonBody = none → r.text ≠ [] →
      send_chat r = .error (.apiError (.text r.text))) ∧
    (r.ok = false → r.jsonBody = none → r.text = [] →
      send_chat r =
        .error (.apiError (.text ((toString r.statusCode).data ++ ' ' :: r.reason)))) ∧
    (r.ok = true → ∀ j, r.jsonBody = some j → send_chat r = .ok j) ∧
    (r.ok = true → r.jsonBody = none →
      send_chat r = .error (.decodeError r.parseErrMsg r.text)) := by
  refine ⟨?_, ?_, ?_, ?_, ?_⟩ <;> intro hok
  · intro j hj; simp [send_chat, hok, hj]
  · intro hj hne
    have he : r.text.isEmpty = false := by
      cases ht : r.text with
      | nil => exact absurd ht hne
      | cons c t => rfl
    simp [send_chat, hok, hj, he]
  · intro hj he; simp [send_chat, hok, hj, he]
  · intro j hj; simp [send_chat, hok, hj]
  · intro hj; simp [send_chat, hok, hj]

/-- C5 counterexample: a non-success response with an empty, non-JSON body
fails carrying the `"404 Not Found"` status string — not the raw text,
which is empty here, as the claim states. -/
theorem claimC5_counterexample :
    send_chat ⟨false, 404, "Not Found".data, [], none, []⟩ =
      .error (.apiError (.text "404 Not Found".data)) ∧
    "404 Not Found".data ≠ ([] : PyStr) := ⟨rfl, by decide⟩

/-- C5 witness: a success response with a parsed JSON body is returned
as-is. -/
theorem claimC5_witness :
    send_chat ⟨true, 200, [], "x".data, some (.dict .nil), []⟩ = .ok (.dict .nil) :=
  (claimC5_response_validation _).2.2.2.1 rfl (.dict .nil) rfl

/-- C6 (amended): inside the CLI's error handler an API failure exits with
code 2, and success exits 0; the setup script exits 2 for a missing
explicitly-specified certificate and 0 for an existing one. The missing
prompt file, however, is read before the `try` block, so it terminates the
process through an uncaught exception with exit status 1, not 2. -/
theorem claimC6_exit_codes :
    (∀ (fs : PyStr → Option PyStr) (promptArg : Option PyStr) chat f,
      fs f = none → mainCLI fs (some f) promptArg chat = 1) ∧
    (∀ fs fileArg promptArg chat p e, resolvePrompt fs fileArg promptArg = some p →
      chat (build_messages p) = .error e → mainCLI fs fileArg promptArg chat = 2) ∧
    (∀ fs fileArg promptArg chat p j, resolvePrompt fs fileArg promptArg = some p →
      chat (build_messages p) = .ok j → mainCLI fs fileArg promptArg chat = 0) ∧
    (∀ pathExists z cands,
      pathExists z = false → setup_main pathExists (some z) cands = 2) ∧
    (∀ pathExists z cands,
      pathExists z = true → setup_main pathExists (some z) cands = 0) := by
  refine ⟨?_, ?_, ?_, ?_, ?_⟩
  · intro fs promptArg chat f h
    simp [mainCLI, resolvePrompt, h]
  · intro fs fileArg promptArg chat p e hp hc
    simp [mainCLI, hp, hc]
  · intro fs fileArg promptArg chat p j hp hc
    simp [mainCLI, hp, hc]
  · intro pathExists z cands h
    simp [setup_main, h]
  · intro pathExists z cands h
    simp [setup_main, h]

/-- C6 counterexample: a missing prompt file makes the CLI terminate with
exit status 1 (an uncaught exception before the handler), not the
error-printing exit code 2 the claim states. -/
theorem claimC6_counterexample :
    mainCLI (fun _ => none) (some "prompt.txt".data) none (fun _ => .ok .null) = 1 ∧
    (1 : Nat) ≠ 2 := ⟨rfl, by decide⟩

/-- C6 witness: an API error on a resolvable prompt exits with code 2. -/
theorem claimC6_witness :
    mainCLI (fun _ => some "hi".data) (some "prompt.txt".data) none
      (fun _ => .error (.apiError (.text []))) = 2 :=
  claimC6_exit_codes.2.1 _ _ _ _ (pyStrip "hi".data) (.apiError (.text [])) rfl rfl

/-- C7 (amended): the preview of one choice follows the fallback chain —
nested message content, else flat text field, else a JSON rendering of the
whole choice cut to 400 characters. A content or text preview longer than
400 characters is truncated and ellipsis-terminated; the JSON-rendering
fallback, however, is cut to 400 characters before the final length test
and therefore is never ellipsis-terminated, against the claim's final
clause. -/
theorem claimC7_preview_chain (choice : PyDict) :
    (∀ msg s, msgDictBranch choice = some msg →
      (pyLookup msg "content".data).getD (.str []) = .str s →
      summarize_choice choice = some (.str (truncPreview s))) ∧
    (msgDictBranch choice = none →
      ∀ s, pyLookup choice "text".data = some (.str s) →
      summarize_choice choice = some (.str (truncPreview s))) ∧
    (msgDictBranch choice = none → pyLookup choice "text".data = none →
      summarize_choice choice = some (.str ((jsonDumps (.dict choice)).take 400))) ∧
    (∀ s : PyStr, 400 < s.length → truncPreview s = s.take 400 ++ ['…']) ∧
    (∀ s : PyStr, s.length ≤ 400 → truncPreview s = s) := by
  refine ⟨?_, ?_, ?_, ?_, ?_⟩
  · intro msg s hm hc
    cases hv : pyLookup choice "message".data with
    | some v =>
      cases v <;> rw [msgDictBranch, hv] at hm <;> simp at hm
      case dict m =>
        subst hm
        simp [summarize_choice, hv, hc, summarize_final_str]
    | none => rw [msgDictBranch, hv] at hm; simp at hm
  · intro hm s ht
    cases hv : pyLookup choice "message".data with
    | some v =>
      cases v <;> rw [msgDictBranch, hv] at hm <;>
        simp [summarize_choice, hv, ht, summarize_final_str] at hm ⊢
    | none => simp [summarize_choice, hv, ht, summarize_final_str]
  · intro hm ht
    cases hv : pyLookup choice "message".data with
    | some v =>
      cases v <;> rw [msgDictBranch, hv] at hm <;>
        simp [summarize_choice, hv, ht, summarize_final_str,
          truncPreview_take400] at hm ⊢
    | none =>
      simp [summarize_choice, hv, ht, summarize_final_str, truncPreview_take400]
  · intro s h
    simp [truncPreview, Nat.not_le.mpr h]
  · intro s h
    simp [truncPreview, h]

set_option maxRecDepth 40000 in
/-- C7 counterexample: a choice with neither message nor text dumps to a
409-character JSON rendering; its preview is the first 400 characters,
which end in a plain character, not the ellipsis the claim requires of
truncated previews. -/
theorem claimC7_counterexample :
    summarize_choice (.cons ['a'] (.str (List.replicate 400 'x')) .nil) =
      some (.str ((jsonDumps (.dict (.cons ['a'] (.str (List.replicate 400 'x')) .nil))).take 400)) ∧
    (jsonDumps (.dict (.cons ['a'] (.str (List.replicate 400 'x')) .nil))).length = 409 ∧
    ((jsonDumps (.dict (.cons ['a'] (.str (List.replicate 400 'x')) .nil))).take 400).getLast? =
      some 'x' ∧
    'x' ≠ '…' := ⟨by decide, by decide, by decide, by decide⟩

/-- C7 witness: the flat-text branch of the fallback chain at a concrete
choice. -/
theorem claimC7_witness :
    summarize_choice (.cons "text".data (.str ['h', 'i']) .nil) =
      some (.str (truncPreview ['h', 'i'])) :=
  (claimC7_preview_chain (.cons "text".data (.str ['h', 'i']) .nil)).2.1
    (by decide) ['h', 'i'] (by decide)

/-- C8 (confirmed): for message content of exactly 401 characters the
preview is the first 400 characters plus a single ellipsis character; for
content of at most 400 characters the preview is the content itself, and
re-summarizing such a preview returns it unchanged. -/
theorem claimC8_truncation (s : PyStr) :
    (s.length = 401 →
      summarize_choice (.cons "message".data (PyVal.dict (.cons "content".data (.str s) .nil)) .nil) =
        some (.str (s.take 400 ++ ['…']))) ∧
    (s.length ≤ 400 →
      summarize_choice (.cons "message".data (PyVal.dict (.cons "content".data (.str s) .nil)) .nil) =
        some (.str s)) ∧
    (∀ p, s.length ≤ 400 →
      summarize_choice (.cons "message".data (PyVal.dict (.cons "content".data (.str s) .nil)) .nil) =
        some (.str p) →
      summarize_choice (.cons "message".data (PyVal.dict (.cons "content".data (.str p) .nil)) .nil) =
        some (.str p)) := by
  have key : ∀ t : PyStr,
      summarize_choice (.cons "message".data (PyVal.dict (.cons "content".data (.str t) .nil)) .nil) =
        some (.str (truncPreview t)) := fun t => summarize_final_str t
  refine ⟨?_, ?_, ?_⟩
  · intro h
    rw [key]
    simp [truncPreview, h]
  · intro h
    rw [key]
    simp [truncPreview, h]
  · intro p h hp
    rw [key] at hp
    have hs : truncPreview s = s := by simp [truncPreview, h]
    rw [hs] at hp
    obtain rfl : s = p := by simpa using hp
    rw [key, hs]

set_option maxRecDepth 40000 in
/-- C8 witness: the 401-character case at a concrete string. -/
theorem claimC8_witness :
    summarize_choice
      (.cons "message".data (PyVal.dict (.cons "content".data (.str (List.replicate 401 'a')) .nil)) .nil) =
      some (.str ((List.replicate 401 'a').take 400 ++ ['…'])) :=
  (claimC8_truncation _).1 (by simp)

/-- C9 (confirmed): whenever the Groq call raises, the summarize route
returns the fixed JSON error body carrying the exception's string rendering
together with status 500, never propagating the failure. -/
theorem claimC9_route_error (strOfExc : ChatError → PyStr) (xmsg : PyStr)
    (body : PyDict) (r : HttpResp) (e : ChatError) (h : send_chat r = .error e) :
    summarize_route strOfExc xmsg body r =
      (.dict (.cons "error".data (.str "Failed to call Groq API".data)
        (.cons "details".data (.str (strOfExc e)) .nil)), 500) := by
  simp [summarize_route, h]

/-- C9 witness: the route's behavior on a concrete failing response. -/
theorem claimC9_witness :
    summarize_route (fun _ => ['E']) [] .nil ⟨false, 404, "Not Found".data, [], none, []⟩ =
      (.dict (.cons "error".data (.str "Failed to call Groq API".data)
        (.cons "details".data (.str ['E']) .nil)), 500) :=
  claimC9_route_error _ _ _ _ (.apiError (.text "404 Not Found".data)) rfl

/-- C10 (amended): every string `summarize_choice` returns has length at
most 401 characters — at most 400 characters of content plus at most one
ellipsis character; but the function does not always return a string: a
list- or dict-valued content or text field passes Python's `len` test and,
when it has at most 400 elements, is returned unchanged as a non-string. -/
theorem claimC10_preview_bound (choice : PyDict) (v : PyVal)
    (h : summarize_choice choice = some v) :
    (∀ s, v = .str s → s.length ≤ 401) ∧
    (isStr v = false → ∃ n, pyLen v = some n ∧ n ≤ 400) := by
  unfold summarize_choice at h
  exact summarize_final_bound _ v h

/-- C10 counterexample: for the choice with a two-element list under its
text key, `len(content)` succeeds (2 ≤ 400) and the list itself is
returned — a non-string value, refuting the claim that every returned
preview is a string of at most 401 characters. -/
theorem claimC10_counterexample :
    summarize_choice
      (.cons "text".data (.list (.cons (.int 1) (.cons (.int 2) .nil))) .nil) =
      some (.list (.cons (.int 1) (.cons (.int 2) .nil))) ∧
    isStr (.list (.cons (.int 1) (.cons (.int 2) .nil))) = false :=
  ⟨by decide, by decide⟩

/-- C10 witness: the amended claim at a concrete short string preview. -/
theorem claimC10_witness :
    (∀ s, PyVal.str ['o', 'k'] = PyVal.str s → s.length ≤ 401) ∧
    (isStr (PyVal.str ['o', 'k']) = false →
      ∃ n, pyLen (PyVal.str ['o', 'k']) = some n ∧ n ≤ 400) :=
  claimC10_preview_bound (.cons "text".data (.str ['o', 'k']) .nil)
    (.str ['o', 'k']) rfl

end SmartBookGist
